import Mathlib

/-!
Shallow embedding of the effect-actor core (specification model, transition
executor, specification validator, orchestration service) and proofs of the
claims about it.

JavaScript objects are modelled as association lists with first-match lookup;
JavaScript string truthiness (the empty string is falsy) is modelled
explicitly, because the source uses `if (x)` checks on names and on
transition definitions.
-/

namespace EffectActor

/-- A JSON-ish context value. The claims only need that values can collide
under a shallow merge, so a small closed universe suffices. -/
inductive Value where
  | vNum (n : Int)
  | vStr (s : String)
  | vBool (b : Bool)
deriving DecidableEq, Repr

/-- A context is a JavaScript object: string keys to values. -/
abbrev Ctx := List (String × Value)

/-- Object property lookup `m[k]`: first matching key, `none` for absent. -/
def lookupKey {α : Type} : List (String × α) → String → Option α
  | [], _ => none
  | (k2, v) :: rest, k => if k2 == k then some v else lookupKey rest k

/-- `Object.keys`, in declaration order. -/
def keysOf {α : Type} (m : List (String × α)) : List String := m.map Prod.fst

/-- Shallow merge modelling the JS spread `\x7b...a, ...b\x7d`: every key of `b`
wins over a same-named key of `a`; other keys of `a` survive. -/
def mergeCtx (a b : Ctx) : Ctx :=
  a.filter (fun p => (lookupKey b p.1).isNone) ++ b

/-- JS truthiness of a string: only the empty string is falsy. -/
def strTruthy (s : String) : Bool := s != ""

/-- JS truthiness of an optional string property. -/
def optStrTruthy : Option String → Bool
  | none => false
  | some s => strTruthy s

/-- `Transition` from spec/types.ts: a bare target-state name, or an object
with `target`, optional `guard` and `action` names, and optional static
`data`. -/
inductive Transition where
  | name (target : String)
  | full (target : String) (guard : Option String) (action : Option String)
      (data : Option Ctx)
deriving DecidableEq, Repr

/-- JS truthiness of a transition definition: an object is always truthy, a
bare string target is truthy iff non-empty. `executeCommand` tests
`if (!transitionDef)` after the lookup. -/
def transitionTruthy : Transition → Bool
  | .name t => strTruthy t
  | .full _ _ _ _ => true

/-- The normalized transition `\x7btarget, guard?, action?\x7d` built by the
executor ("a bare string target is sugar for `\x7btarget\x7d`"). -/
structure NormTransition where
  target : String
  guard : Option String
  action : Option String
deriving DecidableEq, Repr

/-- Normalization step of `executeCommand` / `validateTransition`. -/
def normalizeTransition : Transition → NormTransition
  | .name t => { target := t, guard := none, action := none }
  | .full t g a _ => { target := t, guard := g, action := a }

/-- `StateDefinition` from spec/types.ts: event-keyed outgoing transitions
plus optional entry/exit action names. An absent `on` map behaves exactly
like an empty one in every use site (`stateDef.onMap?.[e]`,
`Object.keys(stateDef.onMap ?? \x7b\x7d)`), so it is modelled as `[]`. -/
structure StateDefinition where
  onMap : List (String × Transition)
  entry : Option String
  exit : Option String
deriving DecidableEq, Repr

/-- `ActorSpec` from spec/types.ts. The schema is modelled as a decode
function returning the decoded value on success; it is `Option`al so that the
validator's `if (!spec.schema)` presence check is expressible. -/
structure ActorSpec where
  id : String
  schema : Option (Ctx → Option Ctx)
  initial : String
  states : List (String × StateDefinition)
  guards : List (String × (Ctx → Bool))
  actions : List (String × (Ctx → Ctx))

/-- `ActorState` from actor/types.ts; timestamps are abstract instants. -/
structure ActorState where
  id : String
  actorType : String
  state : String
  context : Ctx
  version : Nat
  createdAt : Nat
  updatedAt : Nat
deriving DecidableEq, Repr

/-- `TransitionResult` from machine/types.ts (`from`/`to` renamed to
`fromState`/`toState` because `from` is a Lean keyword). -/
structure TransitionResult where
  fromState : String
  toState : String
  event : String
  oldContext : Ctx
  newContext : Ctx
  timestamp : Nat
deriving DecidableEq, Repr

/-- The tagged errors `executeCommand` can fail with (errors.ts). -/
inductive ExecError where
  | invalidState (state : String) (validStates : List String)
  | transitionNotAllowed (fromState : String) (event : String)
      (available : List String)
  | guardNotFound (guard : String)
  | guardFailed (guard : String) (reason : String)
  | actionNotFound (action : String)
  | validation (reason : String)
deriving DecidableEq, Repr

/-- Outcome of running the executor: a result, a tagged error, or `crash` for
an untagged JavaScript defect (a thrown TypeError that is not an error value
in the Effect failure channel). -/
inductive ExecResult where
  | ok (r : TransitionResult)
  | err (e : ExecError)
  | crash
deriving DecidableEq, Repr

/-- Resolve-and-apply for one optional action name against the spec's
`actions` table, as each of steps 4-6 of `executeCommand` does it: a falsy
(absent or empty) name is skipped; a truthy name missing from the table
fails `ActionNotFound`; otherwise the action transforms the context. -/
def applyAction (actions : List (String × (Ctx → Ctx))) (name : Option String)
    (ctx : Ctx) : Except ExecError Ctx :=
  match name with
  | none => .ok ctx
  | some a =>
    if strTruthy a then
      match lookupKey actions a with
      | none => .error (.actionNotFound a)
      | some f => .ok (f ctx)
    else .ok ctx

/-- Step 3 of `executeCommand`: if the normalized transition carries a truthy
guard name, resolve it in the spec's `guards` table (fail `GuardNotFound` if
absent) and evaluate it on the merged context; `none` means the guard phase
passes. -/
def guardCheck (guards : List (String × (Ctx → Bool))) (t : NormTransition)
    (ctx : Ctx) : Option ExecError :=
  match t.guard with
  | none => none
  | some g =>
    if strTruthy g then
      match lookupKey guards g with
      | none => some (.guardNotFound g)
      | some f =>
        if f ctx then none
        else some (.guardFailed g
          ("Guard \"" ++ g ++ "\" evaluated to false"))
    else none

/-- Steps 4-6 of `executeCommand`: exit action of the current state, then
the transition action, then - after dereferencing the target state in
`states` with NO existence check, so a dangling target is a crash - the
target state's entry action. Returns the raw context produced by the last
action, or the `ExecResult` that interrupted the pipeline. Only the `states`
and `actions` tables of the spec are consulted; the schema plays no role
yet. -/
def runActionPipeline (states : List (String × StateDefinition))
    (actions : List (String × (Ctx → Ctx))) (stateDef : StateDefinition)
    (transition : NormTransition) (merged : Ctx) : Except ExecResult Ctx :=
  match applyAction actions stateDef.exit merged with
  | .error e => .error (.err e)
  | .ok c1 =>
    match applyAction actions transition.action c1 with
    | .error e => .error (.err e)
    | .ok c2 =>
      match lookupKey states transition.target with
      | none => .error .crash
      | some newStateDef =>
        match applyAction actions newStateDef.entry c2 with
        | .error e => .error (.err e)
        | .ok c3 => .ok c3

/-- Steps 4-8 of `executeCommand`, entered once the guard phase has passed:
the action pipeline, then schema validation (whose decoded value is
discarded), then the result built from the raw post-action context. -/
def actionPhase (spec : ActorSpec) (stateDef : StateDefinition)
    (transition : NormTransition) (fromState : String) (oldContext : Ctx)
    (cmdEvent : String) (merged : Ctx) (now : Nat) : ExecResult :=
  match runActionPipeline spec.states spec.actions stateDef transition
      merged with
  | .error r => r
  | .ok c3 =>
    match spec.schema with
    | none => .crash
    | some dec =>
      if (dec c3).isSome then
        .ok { fromState := fromState
              toState := transition.target
              event := cmdEvent
              oldContext := oldContext
              newContext := c3
              timestamp := now }
      else
        .err (.validation
          "Context validation failed after action execution")

/-- `executeCommand` from machine/transition.ts, step for step:
1. the current state must exist in `spec.states`, else `InvalidState`;
2. the event must select a truthy transition, else `TransitionNotAllowed`
   carrying `Object.keys` of the outgoing map;
3. after normalization and the shallow merge of command data into the
   context, the guard check (`guardCheck`);
4-8. the action/validation pipeline (`actionPhase`). -/
def executeCommand (spec : ActorSpec) (currentState : ActorState)
    (cmdEvent : String) (cmdData : Option Ctx) (now : Nat) : ExecResult :=
  match lookupKey spec.states currentState.state with
  | none => .err (.invalidState currentState.state (keysOf spec.states))
  | some stateDef =>
    match lookupKey stateDef.onMap cmdEvent with
    | none =>
      .err (.transitionNotAllowed currentState.state cmdEvent
        (keysOf stateDef.onMap))
    | some tdef =>
      if transitionTruthy tdef then
        let transition := normalizeTransition tdef
        let merged := mergeCtx currentState.context (cmdData.getD [])
        match guardCheck spec.guards transition merged with
        | some e => .err e
        | none =>
          actionPhase spec stateDef transition currentState.state
            currentState.context cmdEvent merged now
      else
        .err (.transitionNotAllowed currentState.state cmdEvent
          (keysOf stateDef.onMap))

/-! ## Specification validator (spec/validator.ts) -/

/-- The errors `validateSpec` can fail with. -/
inductive VError where
  | specErr (reason : String)
  | invalidState (state : String) (validStates : List String)
  | guardNotFound (guard : String)
  | actionNotFound (action : String)
deriving DecidableEq, Repr

/-- A JS whitespace character, as far as `String.prototype.trim` and the ids
in this development are concerned. -/
def isJsSpace (c : Char) : Bool :=
  c == ' ' || c == '\t' || c == '\n' || c == '\r'

/-- `String.prototype.trim`: strip leading and trailing whitespace. -/
def jsTrim (s : String) : String :=
  String.mk (((s.data.dropWhile isJsSpace).reverse.dropWhile isJsSpace).reverse)

/-- Reference-integrity check for one optional name against a lookup table:
fails (via `mk`) when the name is truthy but does not resolve. Used for
entry/exit/transition action names and guard names in the validator. -/
def checkRef {α : Type} (table : List (String × α)) (name : Option String)
    (mk : String → VError) : Option VError :=
  match name with
  | none => none
  | some s =>
    if strTruthy s && (lookupKey table s).isNone then some (mk s) else none

/-- `validateTransition` from spec/validator.ts: normalize, then check target
(skipped when the target string is falsy), guard, action, in that order. -/
def validateTransition (spec : ActorSpec) (t : Transition) : Option VError :=
  let n := normalizeTransition t
  if strTruthy n.target && (lookupKey spec.states n.target).isNone then
    some (.specErr
      ("Transition target " ++ n.target ++ " does not exist in states"))
  else
    match checkRef spec.guards n.guard VError.guardNotFound with
    | some e => some e
    | none => checkRef spec.actions n.action VError.actionNotFound

/-- First failure over a state's outgoing transitions, in declaration
order. -/
def validateTransitionList (spec : ActorSpec) :
    List (String × Transition) → Option VError
  | [] => none
  | (_, t) :: rest =>
    match validateTransition spec t with
    | some e => some e
    | none => validateTransitionList spec rest

/-- `validateStateDefinition` from spec/validator.ts: entry action, exit
action, then every outgoing transition. -/
def validateStateDefinition (spec : ActorSpec) (sd : StateDefinition) :
    Option VError :=
  match checkRef spec.actions sd.entry VError.actionNotFound with
  | some e => some e
  | none =>
    match checkRef spec.actions sd.exit VError.actionNotFound with
    | some e => some e
    | none => validateTransitionList spec sd.onMap

/-- First failure over all states, in declaration order. -/
def validateStateList (spec : ActorSpec) :
    List (String × StateDefinition) → Option VError
  | [] => none
  | (_, sd) :: rest =>
    match validateStateDefinition spec sd with
    | some e => some e
    | none => validateStateList spec rest

/-- `validateSpec` from spec/validator.ts, in source order: (1) non-empty id,
(2) schema present, (3) `initial` is a key of `states` - else
`InvalidState\x7bstate := initial\x7d` - then (4/5) the per-state and
per-transition reference checks. The step-6 reachability scan only emits a
console warning and never fails, so a `none` result is success. -/
def validateSpec (spec : ActorSpec) : Option VError :=
  if spec.id == "" || jsTrim spec.id == "" then
    some (.specErr "Actor spec must have a non-empty string ID")
  else if spec.schema.isNone then
    some (.specErr "Actor spec must have a schema")
  else if !((keysOf spec.states).contains spec.initial) then
    some (.invalidState spec.initial (keysOf spec.states))
  else
    validateStateList spec spec.states

/-! ## Orchestration service (actor/service.ts) -/

/-- `TransitionCheck`, the result type of `canTransition`. -/
structure TransitionCheck where
  allowed : Bool
  reason : Option String
  target : Option String
deriving DecidableEq, Repr

/-- `canTransition` from actor/service.ts, after the spec has been resolved
and the entity state loaded. Mirrors the source exactly: the transition is
looked up through the optional chain, a missing or falsy transition is
reported not-allowed; a truthy guard name is looked up, and the guard is
evaluated on the stored context only when the lookup succeeds
(`if (guardFn && !guardFn(state.context))`) - an unresolved guard name falls
through to the allowed result. -/
def canTransition (spec : ActorSpec) (state : ActorState) (event : String) :
    TransitionCheck :=
  let notAllowed : TransitionCheck :=
    { allowed := false
      reason := some ("Event \"" ++ event ++ "\" not allowed from state \""
        ++ state.state ++ "\"")
      target := none }
  match lookupKey spec.states state.state with
  | none => notAllowed
  | some sd =>
    match lookupKey sd.onMap event with
    | none => notAllowed
    | some t =>
      if transitionTruthy t then
        let n := normalizeTransition t
        let allowedResult : TransitionCheck :=
          { allowed := true, reason := none, target := some n.target }
        match n.guard with
        | none => allowedResult
        | some g =>
          if strTruthy g then
            match lookupKey spec.guards g with
            | none => allowedResult
            | some f =>
              if f state.context then allowedResult
              else
                { allowed := false
                  reason := some ("Guard \"" ++ g ++ "\" fails")
                  target := none }
          else allowedResult
      else notAllowed

/-- A command submitted to the service (`ExecuteCommand` in actor/types.ts). -/
structure ExecuteCmd where
  actorType : String
  actorId : String
  event : String
  data : Option Ctx
  actor : Option String
deriving DecidableEq, Repr

/-- A `StorageError` value (errors.ts), as the storage provider's load can
fail with: the not-found signal is just one such value (the reference
backends use reason "Actor not found: ..."). -/
structure StorageErr where
  backend : String
  operation : String
  reason : Option String
deriving DecidableEq, Repr

/-- What `storage.load` produced for `(actorType, actorId)`. -/
inductive LoadResult where
  | found (s : ActorState)
  | failed (e : StorageErr)
deriving DecidableEq, Repr

/-- `AuditEntry` from audit.ts (source fields `from`/`to` renamed as in
`TransitionResult`). The wall-clock duration is abstracted to 0: both service
implementations compute it from the same instant captured at entry. -/
structure AuditEntry where
  id : String
  timestamp : Nat
  actorType : String
  actorId : String
  event : String
  fromState : String
  toState : String
  actor : Option String
  data : Option Ctx
  result : String
  duration : Nat
deriving DecidableEq, Repr

/-- Outcome of one `ActorService.execute` call. `ok` carries the returned
`TransitionResult` together with the new state and audit entry passed to the
single `storage.save` call. `loadFailed` (a storage load error propagating to
the caller) is expressible so that claims about propagation can be stated;
whether the code ever produces it is a theorem, not a definition. -/
inductive ServiceOutcome where
  | ok (result : TransitionResult) (saved : ActorState) (audit : AuditEntry)
  | loadFailed (e : StorageErr)
  | execFailed (e : ExecError)
  | crash
deriving DecidableEq, Repr

/-- The fresh state both service implementations synthesize when the load
does not produce one: the spec's initial state, empty context, version 0,
both timestamps set to the instant captured at entry. -/
def freshState (spec : ActorSpec) (cmd : ExecuteCmd) (now : Nat) :
    ActorState :=
  { id := cmd.actorId
    actorType := cmd.actorType
    state := spec.initial
    context := []
    version := 0
    createdAt := now
    updatedAt := now }

/-- `ActorService.execute` (and, identically up to console logging,
`ActorServiceLive.execute`) from actor/service.ts, after the spec has been
resolved from the registry. The load result is passed in explicitly; the
source wraps `storage.load` in `Effect.orElse` (resp. `Effect.catchAll`),
both of which replace EVERY failure with the synthesized initial state - no
inspection of the error happens. On executor success the new state
(version + 1, state and context from the result, `updatedAt` = entry
instant) and the success audit entry are handed to one `storage.save`
call. -/
def serviceExecute (spec : ActorSpec) (cmd : ExecuteCmd) (load : LoadResult)
    (now : Nat) (uuid : String) : ServiceOutcome :=
  let currentState : ActorState :=
    match load with
    | .found s => s
    | .failed _ => freshState spec cmd now
  match executeCommand spec currentState cmd.event cmd.data now with
  | .err e => .execFailed e
  | .crash => .crash
  | .ok result =>
    let newState : ActorState :=
      { id := currentState.id
        actorType := currentState.actorType
        state := result.toState
        context := result.newContext
        version := currentState.version + 1
        createdAt := currentState.createdAt
        updatedAt := now }
    let audit : AuditEntry :=
      { id := uuid
        timestamp := now
        actorType := cmd.actorType
        actorId := cmd.actorId
        event := cmd.event
        fromState := currentState.state
        toState := result.toState
        actor := cmd.actor
        data := cmd.data
        result := "success"
        duration := 0 }
    .ok result newState audit

/-- The version that was loaded, or 0 for the synthesized fresh state. -/
def loadedVersion : LoadResult → Nat
  | .found s => s.version
  | .failed _ => 0

/-! ## Predicates used to state the claims -/

/-- Whether an executor error belongs to the guard phase (steps 1-5 of the
spec's Transition Executor: state lookup, transition lookup, normalization,
merge, guard evaluation) as opposed to the action/validation phase. -/
def guardPhaseErr : ExecError → Bool
  | .invalidState _ _ => true
  | .transitionNotAllowed _ _ _ => true
  | .guardNotFound _ => true
  | .guardFailed _ _ => true
  | .actionNotFound _ => false
  | .validation _ => false

/-- Whether an executor outcome got past the guard phase (steps 1-5). -/
def passesGuardPhase : ExecResult → Bool
  | .ok _ => true
  | .err e => !(guardPhaseErr e)
  | .crash => true

/-- The transition selected by `(stateName, ev)`, when there is one. -/
def selectedTransition (spec : ActorSpec) (stateName ev : String) :
    Option Transition :=
  match lookupKey spec.states stateName with
  | none => none
  | some sd => lookupKey sd.onMap ev

/-- The guard named by the selected transition, when truthy, resolves in
`spec.guards` (vacuously true when no transition or no guard is selected). -/
def guardResolvesB (spec : ActorSpec) (stateName ev : String) : Bool :=
  match selectedTransition spec stateName ev with
  | none => true
  | some t =>
    match (normalizeTransition t).guard with
    | none => true
    | some g => !(strTruthy g) || (lookupKey spec.guards g).isSome

/-- The target of the selected transition resolves in `spec.states`
(vacuously true when no transition is selected). -/
def targetResolvesB (spec : ActorSpec) (stateName ev : String) : Bool :=
  match selectedTransition spec stateName ev with
  | none => true
  | some t => (lookupKey spec.states (normalizeTransition t).target).isSome

/-! ## Concrete specifications used as witnesses and counterexamples -/

/-- An action that records its own execution under key `k`. -/
def tagAction (k : String) : Ctx → Ctx := fun c => (k, Value.vBool true) :: c

/-- State `a` of the witness machine: exit action `ex`, one transition `go`
to `b` with guard `ok` and action `tx`, and one self-loop `stay`. -/
def wStateA : StateDefinition :=
  { onMap := [("go", .full "b" (some "ok") (some "tx") none),
              ("stay", .name "a")]
    entry := none
    exit := some "ex" }

/-- State `b` of the witness machine: entry action `en`, no outgoing
transitions (a terminal state). -/
def wStateB : StateDefinition :=
  { onMap := [], entry := some "en", exit := none }

/-- A fully-resolved witness machine: `a --go[ok]/tx--> b`, exit `ex` on `a`,
entry `en` on `b`, an always-true guard, and an identity (pass-through)
schema. -/
def wSpec : ActorSpec :=
  { id := "w"
    schema := some (fun c => some c)
    initial := "a"
    states := [("a", wStateA), ("b", wStateB)]
    guards := [("ok", fun _ => true)]
    actions := [("ex", tagAction "ex"), ("tx", tagAction "tx"),
                ("en", tagAction "en")] }

/-- An entity sitting in state `a` of the witness machine. -/
def wState : ActorState :=
  { id := "e1", actorType := "w", state := "a"
    context := [("c", Value.vNum 0)]
    version := 3, createdAt := 1, updatedAt := 2 }

/-- The normalized form of `wStateA`'s `go` transition. -/
def wNorm : NormTransition :=
  { target := "b", guard := some "ok", action := some "tx" }

/-- Like `wSpec` but with an always-false guard on `go`. -/
def wSpecNeg : ActorSpec :=
  { wSpec with guards := [("ok", fun _ => false)] }

/-- Like `wSpec` but with a schema that rejects any context in which the
entry action has run (so post-action validation fails). -/
def wSpecBadSchema : ActorSpec :=
  { wSpec with
    schema := some (fun c =>
      if (lookupKey c "en").isSome then none else some c) }

/-- Like `wSpec` but with a schema whose decode rewrites every context to the
empty object (same pass/fail behaviour as the identity schema). -/
def wSpecRewriteSchema : ActorSpec :=
  { wSpec with schema := some (fun _ => some ([] : Ctx)) }

/-- A machine whose only transition names a guard that does not exist in
`guards`: `a --go[missing]--> b`. -/
def dangGuardSpec : ActorSpec :=
  { id := "dg"
    schema := some (fun c => some c)
    initial := "a"
    states := [("a", { onMap := [("go", .full "b" (some "missing") none none)]
                       entry := none, exit := none }),
               ("b", { onMap := [], entry := none, exit := none })]
    guards := []
    actions := [] }

/-- An entity sitting in state `a` of `dangGuardSpec`. -/
def dangGuardState : ActorState :=
  { id := "e2", actorType := "dg", state := "a"
    context := [("c", Value.vNum 1)]
    version := 0, createdAt := 0, updatedAt := 0 }

/-- A machine whose only transition targets a state name that does not exist
in `states`: `a --go--> nowhere`. -/
def dangTargetSpec : ActorSpec :=
  { id := "dt"
    schema := some (fun c => some c)
    initial := "a"
    states := [("a", { onMap := [("go", .name "nowhere")]
                       entry := none, exit := none })]
    guards := []
    actions := [] }

/-- An entity sitting in state `a` of `dangTargetSpec`. -/
def dangTargetState : ActorState :=
  { id := "e3", actorType := "dt", state := "a"
    context := []
    version := 0, createdAt := 0, updatedAt := 0 }

/-- A minimal machine `a --go--> b` with no guards, no actions, and an
identity schema, used for the orchestration-service claims. -/
def svcSpec : ActorSpec :=
  { id := "svc"
    schema := some (fun c => some c)
    initial := "a"
    states := [("a", { onMap := [("go", .name "b")]
                       entry := none, exit := none }),
               ("b", { onMap := [], entry := none, exit := none })]
    guards := []
    actions := [] }

/-- A command sent to `svcSpec` entities. -/
def svcCmd : ExecuteCmd :=
  { actorType := "svc", actorId := "id7", event := "go"
    data := none, actor := none }

/-- A storage load failure that is clearly NOT a not-found signal. -/
def permErr : StorageErr :=
  { backend := "fs-json", operation := "load"
    reason := some "permission denied" }

/-- The transition result `serviceExecute` produces for `svcCmd` against a
failed load at instant 7. -/
def svcRes : TransitionResult :=
  { fromState := "a", toState := "b", event := "go"
    oldContext := [], newContext := [], timestamp := 7 }

/-- The entity state persisted by that same call. -/
def svcNewState : ActorState :=
  { id := "id7", actorType := "svc", state := "b", context := []
    version := 1, createdAt := 7, updatedAt := 7 }

/-- The audit entry persisted by that same call. -/
def svcAudit : AuditEntry :=
  { id := "u0", timestamp := 7, actorType := "svc", actorId := "id7"
    event := "go", fromState := "a", toState := "b", actor := none
    data := none, result := "success", duration := 0 }

/-- A stored entity state for `svcSpec` with version 41, used to witness the
version increment. -/
def svcStoredState : ActorState :=
  { id := "id7", actorType := "svc", state := "a", context := []
    version := 41, createdAt := 2, updatedAt := 3 }

/-- A spec whose `initial` state is dangling AND whose single state carries a
dangling entry action, a dangling transition target and a dangling guard -
so that the validator's initial-state check can be seen to fire first. -/
def badInitialSpec : ActorSpec :=
  { id := "w8"
    schema := some (fun c => some c)
    initial := "ghost"
    states := [("a", { onMap := [("go", .full "nowhere" (some "gmiss") (some "amiss") none)]
                       entry := some "emiss", exit := none })]
    guards := []
    actions := [] }

/-! ## General lemmas about the embedding -/

/-- Lookup in an appended object scans the left part first. -/
lemma lookupKey_append_some {α : Type} {xs : List (String × α)}
    (ys : List (String × α)) {k : String} {v : α}
    (h : lookupKey xs k = some v) : lookupKey (xs ++ ys) k = some v := by
  induction xs with
  | nil => simp [lookupKey] at h
  | cons p rest ih =>
    obtain ⟨k2, w⟩ := p
    by_cases hk : (k2 == k) = true <;>
      simp [lookupKey, hk] at h ⊢ <;> simp_all

/-- Lookup in an appended object falls through to the right part. -/
lemma lookupKey_append_none {α : Type} {xs : List (String × α)}
    (ys : List (String × α)) {k : String}
    (h : lookupKey xs k = none) : lookupKey (xs ++ ys) k = lookupKey ys k := by
  induction xs with
  | nil => rfl
  | cons p rest ih =>
    obtain ⟨k2, w⟩ := p
    by_cases hk : (k2 == k) = true <;>
      simp [lookupKey, hk] at h ⊢ <;> simp_all

/-- Lookup in the part of `a` that `mergeCtx` keeps: a key that `b` defines
is gone, any other key looks up as in `a`. -/
lemma lookupKey_filter_merge (a b : Ctx) (k : String) :
    lookupKey (a.filter (fun p => (lookupKey b p.1).isNone)) k =
      if (lookupKey b k).isNone then lookupKey a k else none := by
  induction a with
  | nil => simp [lookupKey]
  | cons p rest ih =>
    obtain ⟨k2, w⟩ := p
    by_cases hk : (k2 == k) = true
    · have hkeq : k2 = k := eq_of_beq hk
      subst hkeq
      cases hb : (lookupKey b k2).isNone <;>
        simp [List.filter, hb, lookupKey, hk, ih]
    · cases hb : (lookupKey b k2).isNone <;>
        simp [List.filter, hb, lookupKey, hk, ih]

/-- The shallow merge gives every key of `b` (command data) priority over a
same-named key of `a` (the current context), and leaves the other keys of
`a` observable: exactly the JS spread semantics. -/
lemma lookupKey_mergeCtx (a b : Ctx) (k : String) :
    lookupKey (mergeCtx a b) k =
      (lookupKey b k).elim (lookupKey a k) some := by
  unfold mergeCtx
  cases hb : lookupKey b k with
  | some v =>
    have hf : lookupKey (a.filter (fun p => (lookupKey b p.1).isNone)) k
        = none := by
      simp [lookupKey_filter_merge, hb]
    simp [lookupKey_append_none _ hf, hb]
  | none =>
    cases ha : lookupKey a k with
    | some v =>
      have hf : lookupKey (a.filter (fun p => (lookupKey b p.1).isNone)) k
          = some v := by
        simp [lookupKey_filter_merge, hb, ha]
      simp [lookupKey_append_some _ hf]
    | none =>
      have hf : lookupKey (a.filter (fun p => (lookupKey b p.1).isNone)) k
          = none := by
        simp [lookupKey_filter_merge, hb, ha]
      simp [lookupKey_append_none _ hf, hb]

/-- Merging no command data (`\x7b...ctx, ...undefined\x7d`) is the identity. -/
lemma mergeCtx_nil (c : Ctx) : mergeCtx c [] = c := by
  induction c with
  | nil => rfl
  | cons p rest ih =>
    simpa [mergeCtx, lookupKey, List.filter] using ih

/-- `applyAction` can only fail with `ActionNotFound`. -/
lemma applyAction_error_shape {actions : List (String × (Ctx → Ctx))}
    {name : Option String} {ctx : Ctx} {e : ExecError}
    (h : applyAction actions name ctx = .error e) :
    ∃ a, e = .actionNotFound a := by
  unfold applyAction at h
  cases name with
  | none => simp at h
  | some a =>
    by_cases ha : strTruthy a = true
    · simp [ha] at h
      cases hl : lookupKey actions a with
      | none => simp [hl] at h; exact ⟨a, h.symm⟩
      | some f => simp [hl] at h
    · simp [ha] at h

/-- The action pipeline can only be interrupted by an `ActionNotFound` error
or by the dangling-target crash. -/
lemma runActionPipeline_error_shape
    {states : List (String × StateDefinition)}
    {actions : List (String × (Ctx → Ctx))} {sd : StateDefinition}
    {n : NormTransition} {merged : Ctx} {r : ExecResult}
    (h : runActionPipeline states actions sd n merged = .error r) :
    (∃ a, r = .err (.actionNotFound a)) ∨ r = .crash := by
  unfold runActionPipeline at h
  cases hx : applyAction actions sd.exit merged with
  | error e =>
    simp [hx] at h
    obtain ⟨a, rfl⟩ := applyAction_error_shape hx
    exact Or.inl ⟨a, h.symm⟩
  | ok c1 =>
    simp only [hx] at h
    cases ha : applyAction actions n.action c1 with
    | error e =>
      simp [ha] at h
      obtain ⟨a, rfl⟩ := applyAction_error_shape ha
      exact Or.inl ⟨a, h.symm⟩
    | ok c2 =>
      simp only [ha] at h
      cases hl : lookupKey states n.target with
      | none => simp [hl] at h; exact Or.inr h.symm
      | some nsd =>
        simp only [hl] at h
        cases he : applyAction actions nsd.entry c2 with
        | error e =>
          simp [he] at h
          obtain ⟨a, rfl⟩ := applyAction_error_shape he
          exact Or.inl ⟨a, h.symm⟩
        | ok c3 => simp [he] at h

/-- Whatever the action/validation phase produces, it is never one of the
guard-phase errors: it got past steps 1-5. -/
lemma passesGuardPhase_actionPhase (spec : ActorSpec) (sd : StateDefinition)
    (n : NormTransition) (fs : String) (oc : Ctx) (ev : String) (merged : Ctx)
    (now : Nat) :
    passesGuardPhase (actionPhase spec sd n fs oc ev merged now) = true := by
  unfold actionPhase
  cases hp : runActionPipeline spec.states spec.actions sd n merged with
  | error r =>
    rcases runActionPipeline_error_shape hp with ⟨a, rfl⟩ | rfl <;>
      simp [passesGuardPhase, guardPhaseErr]
  | ok c3 =>
    cases hsc : spec.schema with
    | none => simp [passesGuardPhase]
    | some dec =>
      by_cases hv : (dec c3).isSome = true <;>
        simp [hv, passesGuardPhase, guardPhaseErr]

/-! ## The claims -/

/-- C1: for every spec, current state and command whose transition from
state A (exit action `Ex`) via an event carrying transition action `Tx` to
state B (entry action `En`) passes its guard, `executeCommand` returns a
`TransitionResult` whose `newContext` equals
`En (Tx (Ex (mergeCtx currentState.context command.data)))` - where the
shallow merge lets command-data fields override same-named context fields
(first conjunct) - the actions running in the order exit, transition, entry,
each applied to the previous output (second conjunct). -/
theorem exec_action_order :
    (∀ (a b : Ctx) (k : String),
      lookupKey (mergeCtx a b) k = (lookupKey b k).elim (lookupKey a k) some)
    ∧
    (∀ (spec : ActorSpec) (st : ActorState) (ev : String) (d : Option Ctx)
      (now : Nat) (sd bd : StateDefinition) (tdef : Transition)
      (n : NormTransition) (exN txN enN : String) (Ex Tx En : Ctx → Ctx)
      (dec : Ctx → Option Ctx),
      lookupKey spec.states st.state = some sd →
      lookupKey sd.onMap ev = some tdef →
      transitionTruthy tdef = true →
      normalizeTransition tdef = n →
      guardCheck spec.guards n (mergeCtx st.context (d.getD [])) = none →
      sd.exit = some exN → strTruthy exN = true →
      lookupKey spec.actions exN = some Ex →
      n.action = some txN → strTruthy txN = true →
      lookupKey spec.actions txN = some Tx →
      lookupKey spec.states n.target = some bd →
      bd.entry = some enN → strTruthy enN = true →
      lookupKey spec.actions enN = some En →
      spec.schema = some dec →
      (dec (En (Tx (Ex (mergeCtx st.context (d.getD [])))))).isSome = true →
      executeCommand spec st ev d now =
        .ok { fromState := st.state
              toState := n.target
              event := ev
              oldContext := st.context
              newContext := En (Tx (Ex (mergeCtx st.context (d.getD []))))
              timestamp := now }) := by
  constructor
  · exact lookupKey_mergeCtx
  · intro spec st ev d now sd bd tdef n exN txN enN Ex Tx En dec
      hs ht htr hn hg hexn hexT hex htxn htxT htx hb henn henT hen hdec hvalid
    simp [executeCommand, actionPhase, runActionPipeline, applyAction, hs,
      ht, htr, hn, hg, hexn, hexT, hex, htxn, htxT, htx, hb, henn, henT,
      hen, hdec, hvalid]

/-- Witness for C1: the merge-override conjunct and the pipeline conjunct,
both at concrete inputs on the witness machine `wSpec`. -/
theorem exec_action_order_witness :
    (lookupKey (mergeCtx [("d", Value.vNum 1)] [("d", Value.vNum 5)]) "d" =
      (lookupKey [("d", Value.vNum 5)] "d").elim
        (lookupKey [("d", Value.vNum 1)] "d") some)
    ∧
    executeCommand wSpec wState "go" (some [("d", Value.vNum 5)]) 9 =
      .ok { fromState := wState.state
            toState := wNorm.target
            event := "go"
            oldContext := wState.context
            newContext :=
              tagAction "en" (tagAction "tx" (tagAction "ex"
                (mergeCtx wState.context [("d", Value.vNum 5)])))
            timestamp := 9 } :=
  ⟨exec_action_order.1 [("d", Value.vNum 1)] [("d", Value.vNum 5)] "d",
   exec_action_order.2 wSpec wState "go" (some [("d", Value.vNum 5)]) 9
     wStateA wStateB (.full "b" (some "ok") (some "tx") none) wNorm
     "ex" "tx" "en" (tagAction "ex") (tagAction "tx") (tagAction "en")
     (fun c => some c) rfl rfl rfl rfl rfl rfl rfl rfl rfl rfl rfl rfl rfl
     rfl rfl rfl rfl⟩

/-- C7: for every spec, state and event such that the event is not a key of
the current state's outgoing transition map, `executeCommand` fails
`TransitionNotAllowed` carrying the from-state, the event, and exactly
`Object.keys` of that outgoing map as the available list. -/
theorem exec_transition_not_allowed
    (spec : ActorSpec) (st : ActorState) (ev : String) (d : Option Ctx)
    (now : Nat) (sd : StateDefinition)
    (hs : lookupKey spec.states st.state = some sd)
    (ht : lookupKey sd.onMap ev = none) :
    executeCommand spec st ev d now =
      .err (.transitionNotAllowed st.state ev (keysOf sd.onMap)) := by
  simp [executeCommand, hs, ht]

/-- Witness for C7 on the witness machine: event `nope` is not an outgoing
event of state `a`, whose keys are exactly `go, stay`. -/
theorem exec_transition_not_allowed_witness :
    executeCommand wSpec wState "nope" none 0 =
      .err (.transitionNotAllowed "a" "nope" ["go", "stay"]) :=
  exec_transition_not_allowed wSpec wState "nope" none 0 wStateA rfl rfl

/-- C4: if the selected transition carries both a guard and an action and
the guard evaluates false on the merged context, `executeCommand` fails
`GuardFailed` naming that guard - so neither the transition action nor any
exit/entry action output ever appears, and nothing beyond the read-only
merge has happened. -/
theorem exec_guard_failure_short_circuits
    (spec : ActorSpec) (st : ActorState) (ev : String) (d : Option Ctx)
    (now : Nat) (sd : StateDefinition) (tdef : Transition)
    (g aN : String) (f : Ctx → Bool)
    (hs : lookupKey spec.states st.state = some sd)
    (ht : lookupKey sd.onMap ev = some tdef)
    (htr : transitionTruthy tdef = true)
    (hgn : (normalizeTransition tdef).guard = some g)
    (hgT : strTruthy g = true)
    (han : (normalizeTransition tdef).action = some aN)
    (hf : lookupKey spec.guards g = some f)
    (hfalse : f (mergeCtx st.context (d.getD [])) = false) :
    executeCommand spec st ev d now =
      .err (.guardFailed g ("Guard \"" ++ g ++ "\" evaluated to false")) := by
  simp [executeCommand, guardCheck, hs, ht, htr, hgn, hgT, hf, hfalse]

/-- Witness for C4 on `wSpecNeg`, whose `go` transition has guard `ok`
(always false there) and action `tx`. -/
theorem exec_guard_failure_short_circuits_witness :
    executeCommand wSpecNeg wState "go" none 0 =
      .err (.guardFailed "ok" ("Guard \"" ++ "ok" ++ "\" evaluated to false")) :=
  exec_guard_failure_short_circuits wSpecNeg wState "go" none 0
    wStateA (.full "b" (some "ok") (some "tx") none) "ok" "tx"
    (fun _ => false) rfl rfl rfl rfl rfl rfl rfl rfl

/-- C5: if the context produced after the exit, transition and entry actions
fails to decode against the spec's schema, `executeCommand` fails
`Validation` and no `TransitionResult` is returned - the schema check is the
last gate. -/
theorem exec_schema_last_gate
    (spec : ActorSpec) (st : ActorState) (ev : String) (d : Option Ctx)
    (now : Nat) (sd bd : StateDefinition) (tdef : Transition)
    (n : NormTransition) (c1 c2 c3 : Ctx) (dec : Ctx → Option Ctx)
    (hs : lookupKey spec.states st.state = some sd)
    (ht : lookupKey sd.onMap ev = some tdef)
    (htr : transitionTruthy tdef = true)
    (hn : normalizeTransition tdef = n)
    (hg : guardCheck spec.guards n (mergeCtx st.context (d.getD [])) = none)
    (hx : applyAction spec.actions sd.exit (mergeCtx st.context (d.getD [])) = .ok c1)
    (ha : applyAction spec.actions n.action c1 = .ok c2)
    (hb : lookupKey spec.states n.target = some bd)
    (he : applyAction spec.actions bd.entry c2 = .ok c3)
    (hdec : spec.schema = some dec)
    (hbad : (dec c3).isSome = false) :
    executeCommand spec st ev d now =
      .err (.validation "Context validation failed after action execution") := by
  simp [executeCommand, actionPhase, runActionPipeline, hs, ht, htr, hn,
    hg, hx, ha, hb, he, hdec, hbad]

/-- Witness for C5 on `wSpecBadSchema`, whose schema rejects any context the
entry action `en` has touched. -/
theorem exec_schema_last_gate_witness :
    executeCommand wSpecBadSchema wState "go" none 0 =
      .err (.validation "Context validation failed after action execution") :=
  exec_schema_last_gate wSpecBadSchema wState "go" none 0
    wStateA wStateB (.full "b" (some "ok") (some "tx") none) wNorm
    (tagAction "ex" (mergeCtx wState.context []))
    (tagAction "tx" (tagAction "ex" (mergeCtx wState.context [])))
    (tagAction "en" (tagAction "tx" (tagAction "ex" (mergeCtx wState.context []))))
    (fun c => if (lookupKey c "en").isSome then none else some c)
    rfl rfl rfl rfl rfl rfl rfl rfl rfl rfl rfl

/-- C8: for every specification with a non-empty id and a present schema
whose initial state is not a key of `states`, `validateSpec` fails with
`InvalidState` carrying that initial state - unconditionally on the contents
of the states, i.e. before any per-state or per-transition reference
check. -/
theorem validate_initial_state_first
    (spec : ActorSpec)
    (hid : (spec.id == "" || jsTrim spec.id == "") = false)
    (hschema : spec.schema.isNone = false)
    (hinit : (keysOf spec.states).contains spec.initial = false) :
    validateSpec spec =
      some (.invalidState spec.initial (keysOf spec.states)) := by
  have hmem : spec.initial ∉ keysOf spec.states := by simpa using hinit
  simp [validateSpec, hid, hschema, hmem]

/-- Witness for C8 on `badInitialSpec`, whose single state also carries a
dangling entry action, guard, action and target: the initial-state check
still wins. -/
theorem validate_initial_state_first_witness :
    validateSpec badInitialSpec = some (.invalidState "ghost" ["a"]) :=
  validate_initial_state_first badInitialSpec rfl rfl rfl

/-- Counterexample to C2 as stated: a storage load failure carrying
"permission denied" - plainly not a not-found signal - does NOT propagate to
the caller; the service synthesizes a fresh state, executes the transition,
and persists the result. -/
theorem service_load_error_swallowed :
    serviceExecute svcSpec svcCmd (.failed permErr) 7 "u0" =
      .ok svcRes svcNewState svcAudit
    ∧ serviceExecute svcSpec svcCmd (.failed permErr) 7 "u0" ≠
      .loadFailed permErr := by
  constructor
  · rfl
  · intro h
    rw [show serviceExecute svcSpec svcCmd (.failed permErr) 7 "u0" =
        .ok svcRes svcNewState svcAudit from rfl] at h
    exact ServiceOutcome.noConfusion h

/-- C2 amended: on EVERY storage load failure - the not-found signal or any
other `StorageError` alike - `ActorService.execute` synthesizes the fresh
initial state (initial state name, empty context, version 0, both
timestamps now) and proceeds exactly as if that state had been loaded; no
load error ever propagates to the caller. -/
theorem service_load_failure_synthesizes
    (spec : ActorSpec) (cmd : ExecuteCmd) (e : StorageErr) (now : Nat)
    (uuid : String) :
    serviceExecute spec cmd (.failed e) now uuid =
      serviceExecute spec cmd (.found (freshState spec cmd now)) now uuid
    ∧ ∀ e2, serviceExecute spec cmd (.failed e) now uuid ≠ .loadFailed e2 := by
  constructor
  · rfl
  · intro e2 h
    unfold serviceExecute at h
    cases hex : executeCommand spec (freshState spec cmd now)
        cmd.event cmd.data now <;>
      simp [hex] at h

/-- Witness for C2 (amended) at the concrete service input. -/
theorem service_load_failure_synthesizes_witness :
    serviceExecute svcSpec svcCmd (.failed permErr) 7 "u0" =
      serviceExecute svcSpec svcCmd
        (.found (freshState svcSpec svcCmd 7)) 7 "u0"
    ∧ serviceExecute svcSpec svcCmd (.failed permErr) 7 "u0" ≠
      .loadFailed permErr :=
  ⟨(service_load_failure_synthesizes svcSpec svcCmd permErr 7 "u0").1,
   (service_load_failure_synthesizes svcSpec svcCmd permErr 7 "u0").2 permErr⟩

/-- C6: the version counter. Every successful `execute` persists a state
whose version is exactly the loaded version plus 1, with a load failure
synthesizing version 0 - so a fresh entity's first successful command
persists version 1, and the persisted version strictly exceeds the loaded
one (never decreases or resets). -/
theorem service_version_increment
    (spec : ActorSpec) (cmd : ExecuteCmd) (load : LoadResult) (now : Nat)
    (uuid : String) (r : TransitionResult) (ns : ActorState) (au : AuditEntry)
    (h : serviceExecute spec cmd load now uuid = .ok r ns au) :
    ns.version = loadedVersion load + 1 := by
  unfold serviceExecute at h
  cases load with
  | found s =>
    cases hex : executeCommand spec s cmd.event cmd.data now <;>
      simp [hex] at h
    obtain ⟨-, h2, -⟩ := h
    subst h2
    rfl
  | failed e =>
    cases hex : executeCommand spec (freshState spec cmd now)
        cmd.event cmd.data now <;>
      simp [hex] at h
    obtain ⟨-, h2, -⟩ := h
    subst h2
    rfl

/-- Witness for C6: executing against a stored state at version 41 persists
version 42. -/
theorem service_version_increment_witness :
    ({ id := "id7", actorType := "svc", state := "b", context := []
       version := 42, createdAt := 2, updatedAt := 9 } : ActorState).version =
      loadedVersion (.found svcStoredState) + 1 :=
  service_version_increment svcSpec svcCmd (.found svcStoredState) 9 "u1"
    { fromState := "a", toState := "b", event := "go"
      oldContext := [], newContext := [], timestamp := 9 }
    { id := "id7", actorType := "svc", state := "b", context := []
      version := 42, createdAt := 2, updatedAt := 9 }
    { id := "u1", timestamp := 9, actorType := "svc", actorId := "id7"
      event := "go", fromState := "a", toState := "b", actor := none
      data := none, result := "success", duration := 0 }
    (by rfl)

/-- Counterexample to C3 as stated: on a transition whose guard name does
not resolve in `spec.guards`, `canTransition` does NOT fail `GuardNotFound` -
it skips the guard check entirely and reports the transition allowed - while
`executeCommand` on the same state and event fails `GuardNotFound`: the
dry-run disagrees with the executor exactly there. -/
theorem canTransition_dangling_guard :
    canTransition dangGuardSpec dangGuardState "go" =
      { allowed := true, reason := none, target := some "b" }
    ∧ executeCommand dangGuardSpec dangGuardState "go" none 0 =
      .err (.guardNotFound "missing") :=
  ⟨rfl, rfl⟩

/-- C3 amended: `canTransition` performs the executor's steps 1-5 without
persisting, and its `allowed` verdict agrees with whether `executeCommand`
on the same state with no command data gets past those steps - PROVIDED the
selected transition's guard name, when truthy, resolves in `spec.guards`;
an unresolvable guard name is skipped by `canTransition` (reported allowed)
but fails `GuardNotFound` in the executor. -/
theorem canTransition_agrees_execute
    (spec : ActorSpec) (st : ActorState) (ev : String) (now : Nat)
    (hres : guardResolvesB spec st.state ev = true) :
    (canTransition spec st ev).allowed =
      passesGuardPhase (executeCommand spec st ev none now) := by
  unfold canTransition executeCommand
  cases hs : lookupKey spec.states st.state with
  | none => simp [hs, passesGuardPhase, guardPhaseErr]
  | some sd =>
    cases ht : lookupKey sd.onMap ev with
    | none => simp [hs, ht, passesGuardPhase, guardPhaseErr]
    | some t =>
      by_cases htr : transitionTruthy t = true
      · cases hng : (normalizeTransition t).guard with
        | none =>
          simp [hs, ht, htr, guardCheck, hng, passesGuardPhase_actionPhase]
        | some g =>
          by_cases hgT : strTruthy g = true
          · have hres2 : (lookupKey spec.guards g).isSome = true := by
              simp [guardResolvesB, selectedTransition, hs, ht, hng, hgT]
                at hres
              simpa using hres
            obtain ⟨f, hf⟩ := Option.isSome_iff_exists.mp hres2
            cases hfc : f st.context with
            | true =>
              simp [hs, ht, htr, guardCheck, hng, hgT, hf, mergeCtx_nil, hfc,
                passesGuardPhase_actionPhase]
            | false =>
              simp [hs, ht, htr, guardCheck, hng, hgT, hf, mergeCtx_nil, hfc,
                passesGuardPhase, guardPhaseErr]
          · simp [hs, ht, htr, guardCheck, hng, hgT,
              passesGuardPhase_actionPhase]
      · simp [hs, ht, htr, passesGuardPhase, guardPhaseErr]

/-- Witness for C3 (amended) on the witness machine, whose guard `ok`
resolves. -/
theorem canTransition_agrees_execute_witness :
    (canTransition wSpec wState "go").allowed =
      passesGuardPhase (executeCommand wSpec wState "go" none 0) :=
  canTransition_agrees_execute wSpec wState "go" 0 rfl

/-- The action pipeline crashes only by dereferencing a dangling target:
from a crash, the target's lookup in `states` must have come up empty. -/
lemma runActionPipeline_crash_target
    {states : List (String × StateDefinition)}
    {actions : List (String × (Ctx → Ctx))} {sd : StateDefinition}
    {n : NormTransition} {merged : Ctx}
    (h : runActionPipeline states actions sd n merged = .error .crash) :
    lookupKey states n.target = none := by
  unfold runActionPipeline at h
  cases hx : applyAction actions sd.exit merged with
  | error e => simp [hx] at h
  | ok c1 =>
    simp only [hx] at h
    cases ha : applyAction actions n.action c1 with
    | error e => simp [ha] at h
    | ok c2 =>
      simp only [ha] at h
      cases hl : lookupKey states n.target with
      | none => rfl
      | some nsd =>
        simp only [hl] at h
        cases he : applyAction actions nsd.entry c2 with
        | error e => simp [he] at h
        | ok c3 => simp [he] at h

/-- C9: `executeCommand` is total - an `ExecResult.ok` or a tagged error -
only under the precondition that the selected transition's target resolves
in `spec.states`. First conjunct: a concrete spec whose transition targets
the nonexistent state `nowhere` makes the executor crash with an untagged
defect (the target is dereferenced unconditionally when looking up the entry
action). Second conjunct: whenever the selected target resolves (and the
schema is present, as the TS types guarantee), no crash is possible - the
dangling guard/action cases surface as `GuardNotFound`/`ActionNotFound`
instead. -/
theorem exec_dangling_target_crashes :
    executeCommand dangTargetSpec dangTargetState "go" none 0 = .crash
    ∧ ∀ (spec : ActorSpec) (st : ActorState) (ev : String) (d : Option Ctx)
        (now : Nat), spec.schema.isSome = true →
        targetResolvesB spec st.state ev = true →
        executeCommand spec st ev d now ≠ .crash := by
  constructor
  · rfl
  · intro spec st ev d now hsc htres h
    unfold executeCommand at h
    cases hs : lookupKey spec.states st.state with
    | none => simp [hs] at h
    | some sd =>
      simp only [hs] at h
      cases ht : lookupKey sd.onMap ev with
      | none => simp [ht] at h
      | some t =>
        simp only [ht] at h
        by_cases htr : transitionTruthy t = true
        · simp only [htr, eq_self_iff_true, if_true] at h
          cases hg : guardCheck spec.guards (normalizeTransition t)
              (mergeCtx st.context (d.getD [])) with
          | some e => simp [hg] at h
          | none =>
            simp only [hg] at h
            have htgt :
                (lookupKey spec.states (normalizeTransition t).target).isSome
                  = true := by
              simpa [targetResolvesB, selectedTransition, hs, ht] using htres
            unfold actionPhase at h
            cases hp : runActionPipeline spec.states spec.actions sd
                (normalizeTransition t)
                (mergeCtx st.context (d.getD [])) with
            | error r =>
              simp only [hp] at h
              rcases runActionPipeline_error_shape hp with ⟨a, rfl⟩ | rfl
              · simp at h
              · rw [runActionPipeline_crash_target hp] at htgt
                simp at htgt
            | ok c3 =>
              simp only [hp] at h
              obtain ⟨dec, hdec⟩ := Option.isSome_iff_exists.mp hsc
              rw [hdec] at h
              by_cases hv : (dec c3).isSome = true <;> simp [hv] at h
        · simp [htr] at h

/-- Witness for C9's totality half on the witness machine, whose `go`
transition targets the existing state `b`. -/
theorem exec_dangling_target_crashes_witness :
    executeCommand wSpec wState "go" none 0 ≠ ExecResult.crash :=
  exec_dangling_target_crashes.2 wSpec wState "go" none 0 rfl rfl

/-- C10: the final schema check is a pass/fail gate only. Two specs
identical except for their schemas, whose decodes succeed on exactly the
same contexts, produce identical executor outcomes (first conjunct) - so
whatever transformation, default or coercion a decode performs is never
reflected in the returned or persisted context - and a successful result's
`newContext` is the raw pre-decode value: it still decodes as-is (second
conjunct). -/
theorem exec_schema_gate_only
    (spec spec2 : ActorSpec) (st : ActorState) (ev : String) (d : Option Ctx)
    (now : Nat) (dec dec2 : Ctx → Option Ctx)
    (hdec : spec.schema = some dec) (hdec2 : spec2.schema = some dec2)
    (hid : spec2.id = spec.id) (hinit : spec2.initial = spec.initial)
    (hstates : spec2.states = spec.states)
    (hguards : spec2.guards = spec.guards)
    (hactions : spec2.actions = spec.actions)
    (hsame : ∀ c, (dec c).isSome = (dec2 c).isSome) :
    executeCommand spec st ev d now = executeCommand spec2 st ev d now
    ∧ ∀ r, executeCommand spec st ev d now = .ok r →
        (dec r.newContext).isSome = true := by
  have key : ∀ sd n fs oc evt merged,
      actionPhase spec sd n fs oc evt merged now =
        actionPhase spec2 sd n fs oc evt merged now
      ∧ ∀ r, actionPhase spec sd n fs oc evt merged now = .ok r →
          (dec r.newContext).isSome = true := by
    intro sd n fs oc evt merged
    unfold actionPhase
    rw [hstates, hactions, hdec, hdec2]
    cases hp : runActionPipeline spec.states spec.actions sd n merged with
    | error r =>
      refine ⟨rfl, ?_⟩
      intro r2 hr2
      rcases runActionPipeline_error_shape hp with ⟨a, rfl⟩ | rfl <;>
        simp at hr2
    | ok c3 =>
      constructor
      · by_cases hv : (dec c3).isSome = true
        · have hv2 : (dec2 c3).isSome = true := (hsame c3) ▸ hv
          simp [hv, hv2]
        · have hv2 : ¬((dec2 c3).isSome = true) := by
            rw [← hsame c3]; exact hv
          simp [hv, hv2]
      · intro r hr
        by_cases hv : (dec c3).isSome = true
        · simp only [hv, if_true] at hr
          cases hr
          simpa using hv
        · simp [hv] at hr
  constructor
  · unfold executeCommand
    rw [hstates, hguards]
    cases hs : lookupKey spec.states st.state with
    | none => simp [hs]
    | some sd =>
      simp only [hs]
      cases ht : lookupKey sd.onMap ev with
      | none => simp [ht]
      | some t =>
        simp only [ht]
        by_cases htr : transitionTruthy t = true
        · simp only [htr, eq_self_iff_true, if_true]
          cases hg : guardCheck spec.guards (normalizeTransition t)
              (mergeCtx st.context (d.getD [])) with
          | some e => simp [hg]
          | none =>
            simp only [hg]
            exact (key sd (normalizeTransition t) st.state st.context ev
              (mergeCtx st.context (d.getD []))).1
        · simp [htr]
  · intro r hr
    unfold executeCommand at hr
    cases hs : lookupKey spec.states st.state with
    | none => simp [hs] at hr
    | some sd =>
      simp only [hs] at hr
      cases ht : lookupKey sd.onMap ev with
      | none => simp [ht] at hr
      | some t =>
        simp only [ht] at hr
        by_cases htr : transitionTruthy t = true
        · simp only [htr, eq_self_iff_true, if_true] at hr
          cases hg : guardCheck spec.guards (normalizeTransition t)
              (mergeCtx st.context (d.getD [])) with
          | some e => simp [hg] at hr
          | none =>
            simp only [hg] at hr
            exact (key sd (normalizeTransition t) st.state st.context ev
              (mergeCtx st.context (d.getD []))).2 r hr
        · simp [htr] at hr

/-- Witness for C10 on the witness machine against `wSpecRewriteSchema`,
whose decode rewrites every context to the empty object but accepts the same
contexts: the outcomes coincide, so the rewrite is invisible. -/
theorem exec_schema_gate_only_witness :
    executeCommand wSpec wState "go" none 3 =
      executeCommand wSpecRewriteSchema wState "go" none 3 :=
  (exec_schema_gate_only wSpec wSpecRewriteSchema wState "go" none 3
    (fun c => some c) (fun _ => some ([] : Ctx)) rfl rfl rfl rfl rfl rfl rfl
    (fun _ => rfl)).1

end EffectActor
